import Mathlib

/-!
Verification development for a tree-walking interpreter written in Rust
(scanner, recursive-descent parser, evaluator with an environment chain).
The definitions below are a shallow embedding of the source files
`scanner.rs`, `parser.rs`, `environment.rs`, `function.rs`, `interpreter.rs`,
`statement.rs`, `expression.rs` and `main.rs`.  Machine floats (`f64`) are
modelled as exact rationals; `Rc<RefCell<Environment>>` sharing is modelled
as a store (list) of environments addressed by stable indices; Rust panics
are modelled as a `crash` outcome; the process-wide `HAD_ERROR` flag and the
`println!` stream are threaded explicitly through the states.
-/

namespace CraftingRust

/-- Modelled from the spec: `token.rs` is not under `src/`.  Section 3.1 of
the specification fixes the token model: 39 token kinds (punctuation,
one-or-two-character operators, literals, 16 reserved keywords, `Eof`). -/
inductive TokenType where
  | leftParen | rightParen | leftBrace | rightBrace | comma | dot | minus | plus
  | semicolon | star | slash
  | bang | bangEqual | equal | equalEqual | less | lessEqual | greater | greaterEqual
  | identifier | stringTok | number
  | andKw | classKw | elseKw | falseKw | forKw | funKw | ifKw | nilKw | orKw
  | printKw | returnKw | superKw | thisKw | trueKw | varKw | whileKw
  | eof
deriving DecidableEq, Repr

/-- Modelled from the spec: the token's literal payload (`token.rs` is not
under `src/`): `None`, `Boolean(bool)`, `Number(f64)` or `String(text)`.
The `f64` payload is modelled as an exact rational. -/
inductive Literal where
  | none
  | boolean (b : Bool)
  | number (n : ℚ)
  | string (s : String)
deriving DecidableEq, Repr

/-- Modelled from the spec: a token carries its kind, the exact source
substring (`lexeme`), the literal payload and a 1-based line number. -/
structure Token where
  tokenType : TokenType
  lexeme : String
  literal : Literal
  line : Nat
deriving DecidableEq, Repr

/-! ## Scanner (`scanner.rs`)

The Rust scanner walks the source string with `start`/`current` indices.
Here the not-yet-consumed suffix is kept as a `List Char`; `peek` is its
head and `advance` removes the head.  `scan_token` receives the character
just consumed (the Rust `advance()` at its top) together with the remaining
suffix and the current line, and returns the emitted tokens, the new suffix
and the new line; `none` models a Rust `panic!`. -/

/-- `is_digit` from `scanner.rs`: `c >= '0' && c <= '9'`. -/
def isDigitCh (c : Char) : Bool := c.isDigit

/-- `is_alpha` from `scanner.rs`: ASCII letters and the underscore. -/
def isAlphaCh (c : Char) : Bool := c.isAlpha || c == '_'

/-- `is_alpha_numeric` from `scanner.rs`. -/
def isAlphaNumericCh (c : Char) : Bool := isAlphaCh c || isDigitCh c

/-- Decimal digits to a natural number (used to model `str::parse::<f64>`). -/
def digitsToNat : List Char → Nat → Nat
  | [], acc => acc
  | c :: cs, acc => digitsToNat cs (acc * 10 + (c.toNat - 48))

/-- Model of `value.parse::<f64>().unwrap()` on a collected numeric lexeme
(digits, optionally followed by `.` and digits): the exact rational value of
the decimal literal. -/
def parseNumber (cs : List Char) : ℚ :=
  let ip := cs.takeWhile (fun c => c != '.')
  let rest := cs.dropWhile (fun c => c != '.')
  match rest with
  | [] => (digitsToNat ip 0 : ℚ)
  | _ :: frac => (digitsToNat ip 0 : ℚ) + (digitsToNat frac 0 : ℚ) / ((10 : ℚ) ^ frac.length)

/-- The reserved-word table built in `Scanner::new`. -/
def keywordLookup (s : String) : Option TokenType :=
  if s == "and" then some .andKw
  else if s == "class" then some .classKw
  else if s == "else" then some .elseKw
  else if s == "false" then some .falseKw
  else if s == "for" then some .forKw
  else if s == "fun" then some .funKw
  else if s == "if" then some .ifKw
  else if s == "nil" then some .nilKw
  else if s == "or" then some .orKw
  else if s == "print" then some .printKw
  else if s == "return" then some .returnKw
  else if s == "super" then some .superKw
  else if s == "this" then some .thisKw
  else if s == "true" then some .trueKw
  else if s == "var" then some .varKw
  else if s == "while" then some .whileKw
  else Option.none

/-- `Scanner::identifier`: consume the alphanumeric tail, look the lexeme up
in the reserved-word table, else emit `Identifier`. -/
def scanIdentifier (c : Char) (rest : List Char) (line : Nat) :
    List Token × List Char × Nat :=
  let tail := rest.takeWhile isAlphaNumericCh
  let lex := String.mk (c :: tail)
  let tt := (keywordLookup lex).getD .identifier
  ([Token.mk tt lex .none line], rest.drop tail.length, line)

/-- `Scanner::number`.  After the digits, the source checks
`peek() == '.' && is_digit(peek_next())`; `Scanner::peek_next` bounds-checks
`current + 1` but then reads the character at `current` (the same character
`peek` returns), which is translated faithfully here. -/
def scanNumber (c : Char) (rest : List Char) (line : Nat) :
    List Token × List Char × Nat :=
  let ds := rest.takeWhile isDigitCh
  let r1 := rest.drop ds.length
  let peek1 : Char := match r1 with | [] => '\x00' | a :: _ => a
  let peekNext : Char := if r1.length + 1 ≤ 1 then '\x00' else peek1
  if peek1 == '.' && isDigitCh peekNext then
    let r2 := r1.drop 1
    let ds2 := r2.takeWhile isDigitCh
    let r3 := r2.drop ds2.length
    let lex := c :: ds ++ '.' :: ds2
    ([Token.mk .number (String.mk lex) (.number (parseNumber lex)) line], r3, line)
  else
    let lex := c :: ds
    ([Token.mk .number (String.mk lex) (.number (parseNumber lex)) line], r1, line)

/-- `Scanner::string`: consume until the closing quote, counting embedded
newlines; reaching end of input first is an unterminated-string panic. -/
def scanString (rest : List Char) (line : Nat) :
    Option (List Token × List Char × Nat) :=
  let content := rest.takeWhile (fun c => c != '"')
  if content.length == rest.length then Option.none
  else
    let line' := line + content.count '\n'
    some ([Token.mk .stringTok (String.mk ('"' :: content ++ ['"']))
            (.string (String.mk content)) line'],
          rest.drop (content.length + 1), line')

/-- `Scanner::scan_token`: dispatch on the consumed character `c`.  Note the
dedicated arm for `'o'`: it emits `Or` when the next character is `r` and
otherwise emits nothing at all, so `'o'` never reaches the identifier path. -/
def scanToken (c : Char) (rest : List Char) (line : Nat) :
    Option (List Token × List Char × Nat) :=
  match c with
  | '(' => some ([Token.mk .leftParen "(" .none line], rest, line)
  | ')' => some ([Token.mk .rightParen ")" .none line], rest, line)
  | '\x7b' => some ([Token.mk .leftBrace "\x7b" .none line], rest, line)
  | '\x7d' => some ([Token.mk .rightBrace "\x7d" .none line], rest, line)
  | ',' => some ([Token.mk .comma "," .none line], rest, line)
  | '.' => some ([Token.mk .dot "." .none line], rest, line)
  | '-' => some ([Token.mk .minus "-" .none line], rest, line)
  | '+' => some ([Token.mk .plus "+" .none line], rest, line)
  | ';' => some ([Token.mk .semicolon ";" .none line], rest, line)
  | '*' => some ([Token.mk .star "*" .none line], rest, line)
  | '!' =>
    match rest with
    | '=' :: rs => some ([Token.mk .bangEqual "!=" .none line], rs, line)
    | _ => some ([Token.mk .bang "!" .none line], rest, line)
  | '=' =>
    match rest with
    | '=' :: rs => some ([Token.mk .equalEqual "==" .none line], rs, line)
    | _ => some ([Token.mk .equal "=" .none line], rest, line)
  | '<' =>
    match rest with
    | '=' :: rs => some ([Token.mk .lessEqual "<=" .none line], rs, line)
    | _ => some ([Token.mk .less "<" .none line], rest, line)
  | '>' =>
    match rest with
    | '=' :: rs => some ([Token.mk .greaterEqual ">=" .none line], rs, line)
    | _ => some ([Token.mk .greater ">" .none line], rest, line)
  | '/' =>
    match rest with
    | '/' :: rs => some ([], rs.dropWhile (fun ch => ch != '\n'), line)
    | _ => some ([Token.mk .slash "/" .none line], rest, line)
  | ' ' => some ([], rest, line)
  | '\t' => some ([], rest, line)
  | '\r' => some ([], rest, line)
  | '\n' => some ([], rest, line + 1)
  | '"' => scanString rest line
  | 'o' =>
    match rest with
    | 'r' :: rs => some ([Token.mk .orKw "or" .none line], rs, line)
    | _ => some ([], rest, line)
  | _ =>
    if isDigitCh c then some (scanNumber c rest line)
    else if isAlphaCh c then some (scanIdentifier c rest line)
    else Option.none

/-- The `scan_tokens` loop: repeatedly `scan_token` until the source is
exhausted, then append the synthetic `Eof` token carrying the final line. -/
def scanLoop : Nat → List Char → Nat → Option (List Token)
  | _, [], line => some [Token.mk .eof "" .none line]
  | 0, _ :: _, _ => Option.none
  | fuel + 1, ch :: rest, line =>
    match scanToken ch rest line with
    | Option.none => Option.none
    | some (toks, rest', line') =>
      match scanLoop fuel rest' line' with
      | Option.none => Option.none
      | some more => some (toks ++ more)

/-- `Scanner::scan_tokens` on a whole source string (each loop iteration
consumes at least one character, so `length + 1` units of fuel suffice). -/
def scanTokens (source : String) : Option (List Token) :=
  scanLoop (source.length + 1) source.data 1

/-! ## AST (`expression.rs`, `statement.rs`)

`expression.rs` keeps the `Get` variant commented out, but `parser.rs`
constructs `Expr::Get`/`Expr::set` in its `call` and `assignment` paths, so
both variants are carried here; the evaluator's `accept` has no dispatch for
them (see `evaluate`). -/

inductive Expr where
  | grouping (e : Expr)
  | binary (l : Expr) (op : Token) (r : Expr)
  | unary (op : Token) (r : Expr)
  | assign (name : Token) (value : Expr)
  | logical (l : Expr) (op : Token) (r : Expr)
  | call (callee : Expr) (paren : Token) (args : List Expr)
  | get (obj : Expr) (name : Token)
  | set (obj : Expr) (name : Token) (value : Expr)
  | var (name : Token)
  | literal (l : Literal)
deriving Repr

/-- Statements, as in `statement.rs` (`Var` carries the name token and an
optional initializer; `If` an optional else; `Class` is present but its
`accept` is a no-op). -/
inductive Stmt where
  | expression (e : Expr)
  | print (e : Expr)
  | varDecl (name : Token) (initVal : Option Expr)
  | block (stmts : List Stmt)
  | ifStmt (cond : Expr) (thenBranch : Stmt) (elseBranch : Option Stmt)
  | whileStmt (cond : Expr) (body : Stmt)
  | function (name : Token) (params : List Token) (body : List Stmt)
  | returnStmt (keyword : Token) (value : Option Expr)
  | classDecl (name : Token) (methods : List Stmt)
deriving Repr

/-! ## Parser (`parser.rs`)

The parser state carries the token vector, the `current` index, and — in
place of the process-global `HAD_ERROR` flag and the `println!` calls made
by `crate::error_at_token` — an explicit error log and flag.  Each parse
function returns a `PRes`: `ok` for `Ok`, `err` for a recoverable
`Err(String)` (the message strings are dropped: the callers only test
`is_ok`), and `crash` for a Rust panic (`.unwrap()` on a failed `consume`).
Fuel makes the recursion structural; exhausting it is mapped to `crash` and
is unreachable for the concrete programs considered here. -/

inductive PRes (α : Type) where
  | ok (a : α)
  | err
  | crash
deriving Repr

/-- `crate::report`: the text printed for an error. -/
def reportStr (line : Nat) (whereStr : String) (message : String) : String :=
  "[line " ++ toString line ++ "] Error" ++ whereStr ++ ": " ++ message

structure PState where
  tokens : List Token
  current : Nat
  log : List String
  hadError : Bool
deriving Repr

def dummyToken : Token := Token.mk .eof "" .none 0

def PState.peek (s : PState) : Token := (s.tokens.get? s.current).getD dummyToken

def PState.previous (s : PState) : Token := (s.tokens.get? (s.current - 1)).getD dummyToken

def PState.isAtEnd (s : PState) : Bool := s.peek.tokenType == .eof

/-- `Parser::advance`: step `current` unless at `Eof`; yield `previous()`. -/
def PState.advance (s : PState) : Token × PState :=
  let s' := if s.isAtEnd then s else { s with current := s.current + 1 }
  (s'.previous, s')

/-- `crate::error_at_token`: report at the token's position and set the flag. -/
def PState.errorAtToken (s : PState) (tok : Token) (message : String) : PState :=
  let whereStr := if tok.tokenType == .eof then " at end" else " at '" ++ tok.lexeme ++ "'"
  { s with log := s.log ++ [reportStr tok.line whereStr message], hadError := true }

def PState.check (s : PState) (tt : TokenType) : Bool :=
  if s.isAtEnd then false else s.peek.tokenType == tt

/-- `Parser::match_token`: advance past the first matching kind. -/
def PState.matchToken : PState → List TokenType → Bool × PState
  | s, [] => (false, s)
  | s, tt :: tts => if s.check tt then (true, (s.advance).2) else s.matchToken tts

/-- `Parser::consume`: advance on the expected kind, else report and `Err`. -/
def PState.consume (s : PState) (tt : TokenType) (message : String) :
    PRes Token × PState :=
  if s.check tt then
    let (t, s') := s.advance
    (.ok t, s')
  else
    (.err, s.errorAtToken s.peek message)

/-- The loop body of `Parser::synchronize`. -/
def synchronizeLoop : Nat → PState → PState
  | 0, s => s
  | fuel + 1, s =>
    if s.isAtEnd then s
    else if s.previous.tokenType == .semicolon then s
    else
      match s.peek.tokenType with
      | .classKw => s
      | .funKw => s
      | .varKw => s
      | .forKw => s
      | .ifKw => s
      | .whileKw => s
      | .printKw => s
      | .returnKw => s
      | _ => synchronizeLoop fuel (s.advance).2

/-- `Parser::synchronize`: advance once, then skip to a statement boundary. -/
def PState.synchronize (s : PState) : PState :=
  synchronizeLoop (s.tokens.length + 1) (s.advance).2

/-- The mutually recursive parser methods, gathered in one bundle so that
the fuelled fixpoint below unfolds by plain iota reduction. -/
structure ParserF where
  declaration : PState → PRes (Option Stmt) × PState
  classDeclaration : PState → PRes Stmt × PState
  classMethodsLoop : PState → PRes (List Stmt) × PState
  functionDecl : String → PState → PRes Stmt × PState
  paramsLoop : List Token → PState → PRes (List Token) × PState
  blockLoop : PState → PRes (List Stmt) × PState
  blockStmts : PState → PRes (List Stmt) × PState
  statement : PState → PRes Stmt × PState
  forStatement : PState → PRes Stmt × PState
  ifStatement : PState → PRes Stmt × PState
  printStatement : PState → PRes Stmt × PState
  returnStatement : PState → PRes Stmt × PState
  varDeclaration : PState → PRes Stmt × PState
  whileStatement : PState → PRes Stmt × PState
  expressionStatement : PState → PRes Stmt × PState
  expression : PState → PRes Expr × PState
  assignment : PState → PRes Expr × PState
  orExpr : PState → PRes Expr × PState
  orLoop : Expr → PState → PRes Expr × PState
  andExpr : PState → PRes Expr × PState
  andLoop : Expr → PState → PRes Expr × PState
  equality : PState → PRes Expr × PState
  equalityLoop : Expr → PState → PRes Expr × PState
  comparison : PState → PRes Expr × PState
  comparisonLoop : Expr → PState → PRes Expr × PState
  termExpr : PState → PRes Expr × PState
  termLoop : Expr → PState → PRes Expr × PState
  factor : PState → PRes Expr × PState
  factorLoop : Expr → PState → PRes Expr × PState
  unaryExpr : PState → PRes Expr × PState
  callExpr : PState → PRes Expr × PState
  callLoop : Expr → PState → PRes Expr × PState
  finishCall : Expr → PState → PRes Expr × PState
  argsLoop : List Expr → PState → PRes (List Expr) × PState
  primary : PState → PRes Expr × PState
  parseLoop : PState → PRes (List Stmt) × PState

/-- Out-of-fuel base of the parser fixpoint, modelled as a crash
(unreachable given enough fuel). -/
def parserBase : ParserF where
  declaration := fun s => (.crash, s)
  classDeclaration := fun s => (.crash, s)
  classMethodsLoop := fun s => (.crash, s)
  functionDecl := fun _ s => (.crash, s)
  paramsLoop := fun _ s => (.crash, s)
  blockLoop := fun s => (.crash, s)
  blockStmts := fun s => (.crash, s)
  statement := fun s => (.crash, s)
  forStatement := fun s => (.crash, s)
  ifStatement := fun s => (.crash, s)
  printStatement := fun s => (.crash, s)
  returnStatement := fun s => (.crash, s)
  varDeclaration := fun s => (.crash, s)
  whileStatement := fun s => (.crash, s)
  expressionStatement := fun s => (.crash, s)
  expression := fun s => (.crash, s)
  assignment := fun s => (.crash, s)
  orExpr := fun s => (.crash, s)
  orLoop := fun _ s => (.crash, s)
  andExpr := fun s => (.crash, s)
  andLoop := fun _ s => (.crash, s)
  equality := fun s => (.crash, s)
  equalityLoop := fun _ s => (.crash, s)
  comparison := fun s => (.crash, s)
  comparisonLoop := fun _ s => (.crash, s)
  termExpr := fun s => (.crash, s)
  termLoop := fun _ s => (.crash, s)
  factor := fun s => (.crash, s)
  factorLoop := fun _ s => (.crash, s)
  unaryExpr := fun s => (.crash, s)
  callExpr := fun s => (.crash, s)
  callLoop := fun _ s => (.crash, s)
  finishCall := fun _ s => (.crash, s)
  argsLoop := fun _ s => (.crash, s)
  primary := fun s => (.crash, s)
  parseLoop := fun s => (.crash, s)

/-- One step of the parser fixpoint: each field is the direct translation
of the corresponding `parser.rs` method, with recursive calls going through
the bundle `ih` of the previous fuel level. -/
def parserStep (ih : ParserF) : ParserF where
  -- `Parser::declaration`: dispatch on `class`/`fun`/`var`/statement;
  -- failed `var`-declarations and statements synchronize and yield nothing.
  declaration := fun s =>
    let (mClass, s1) := s.matchToken [.classKw]
    if mClass then
      match ih.classDeclaration s1 with
      | (.ok st, s2) => (.ok (some st), s2)
      | (.err, s2) => (.ok Option.none, s2)
      | (.crash, s2) => (.crash, s2)
    else
      let (mFun, s1') := s1.matchToken [.funKw]
      if mFun then
        match ih.functionDecl "function" s1' with
        | (.ok st, s2) => (.ok (some st), s2)
        | (.err, s2) => (.ok Option.none, s2)
        | (.crash, s2) => (.crash, s2)
      else
        let (mVar, s1'') := s1'.matchToken [.varKw]
        if mVar then
          match ih.varDeclaration s1'' with
          | (.ok st, s2) => (.ok (some st), s2)
          | (.err, s2) => (.ok Option.none, s2.synchronize)
          | (.crash, s2) => (.crash, s2)
        else
          match ih.statement s1'' with
          | (.ok st, s2) => (.ok (some st), s2)
          | (.err, s2) => (.ok Option.none, s2.synchronize)
          | (.crash, s2) => (.crash, s2)
  -- `Parser::class_declaration` (the trailing `consume` result is dropped).
  classDeclaration := fun s =>
    match s.consume .identifier "Expect class name." with
    | (.ok name, s1) =>
      match s1.consume .leftBrace "Expect '\x7b' before class body." with
      | (.ok _, s2) =>
        match ih.classMethodsLoop s2 with
        | (.ok methods, s3) =>
          let (_, s4) := s3.consume .rightBrace "Expect '\x7d' after class body."
          (.ok (Stmt.classDecl name methods), s4)
        | (.err, s3) => (.err, s3)
        | (.crash, s3) => (.crash, s3)
      | (.err, s2) => (.err, s2)
      | (.crash, s2) => (.crash, s2)
    | (.err, s1) => (.err, s1)
    | (.crash, s1) => (.crash, s1)
  -- The method loop of `class_declaration` (failed methods are skipped).
  classMethodsLoop := fun s =>
    if !s.check .rightBrace && !s.isAtEnd then
      match ih.functionDecl "method" s with
      | (.ok st, s1) =>
        match ih.classMethodsLoop s1 with
        | (.ok rest, s2) => (.ok (st :: rest), s2)
        | (.err, s2) => (.err, s2)
        | (.crash, s2) => (.crash, s2)
      | (.err, s1) => ih.classMethodsLoop s1
      | (.crash, s1) => (.crash, s1)
    else (.ok [], s)
  -- `Parser::function`: the name `consume` is `.unwrap()`ed, so its failure
  -- is a panic; a failed parameter `consume` is skipped (`if let Ok`).
  functionDecl := fun kind s =>
    match s.consume .identifier ("Expect " ++ kind ++ " name.") with
    | (.ok name, s1) =>
      match s1.consume .leftParen ("Expect '(' after " ++ kind ++ " name.") with
      | (.ok _, s2) =>
        let (params, s3res) :=
          if s2.check .rightParen then (PRes.ok ([] : List Token), s2)
          else ih.paramsLoop [] s2
        match params, s3res with
        | .ok ps, s3 =>
          match s3.consume .rightParen "Expect ')' after parameters." with
          | (.ok _, s4) =>
            match s4.consume .leftBrace ("Expect '\x7b' before " ++ kind ++ " body.") with
            | (.ok _, s5) =>
              match ih.blockStmts s5 with
              | (.ok body, s6) => (.ok (Stmt.function name ps body), s6)
              | (.err, s6) => (.err, s6)
              | (.crash, s6) => (.crash, s6)
            | (.err, s5) => (.err, s5)
            | (.crash, s5) => (.crash, s5)
          | (.err, s4) => (.err, s4)
          | (.crash, s4) => (.crash, s4)
        | .err, s3 => (.err, s3)
        | .crash, s3 => (.crash, s3)
      | (.err, s2) => (.err, s2)
      | (.crash, s2) => (.crash, s2)
    | (.err, s1) => (.crash, s1)
    | (.crash, s1) => (.crash, s1)
  -- The parameter loop of `Parser::function`.
  paramsLoop := fun params s =>
    let s1 := if 255 ≤ params.length then
        s.errorAtToken s.peek "Can't have more than 255 parameters" else s
    let (params', s2) :=
      match s1.consume .identifier "Expect parameter name." with
      | (.ok p, s2) => (params ++ [p], s2)
      | (_, s2) => (params, s2)
    let (mComma, s3) := s2.matchToken [.comma]
    if mComma then ih.paramsLoop params' s3 else (.ok params', s3)
  -- `Parser::block` body loop (failed declarations contribute nothing).
  blockLoop := fun s =>
    if !s.check .rightBrace && !s.isAtEnd then
      match ih.declaration s with
      | (.ok (some st), s1) =>
        match ih.blockLoop s1 with
        | (.ok rest, s2) => (.ok (st :: rest), s2)
        | (.err, s2) => (.err, s2)
        | (.crash, s2) => (.crash, s2)
      | (.ok Option.none, s1) => ih.blockLoop s1
      | (.err, s1) => (.err, s1)
      | (.crash, s1) => (.crash, s1)
    else (.ok [], s)
  -- `Parser::block`: the closing-brace `consume` is `.unwrap()`ed (panic).
  blockStmts := fun s =>
    match ih.blockLoop s with
    | (.ok stmts, s1) =>
      match s1.consume .rightBrace "Expect '\x7d' after block." with
      | (.ok _, s2) => (.ok stmts, s2)
      | (_, s2) => (.crash, s2)
    | (.err, s1) => (.err, s1)
    | (.crash, s1) => (.crash, s1)
  -- `Parser::statement`.
  statement := fun s =>
    let (mFor, s1) := s.matchToken [.forKw]
    if mFor then ih.forStatement s1
    else
      let (mIf, s2) := s1.matchToken [.ifKw]
      if mIf then ih.ifStatement s2
      else
        let (mPrint, s3) := s2.matchToken [.printKw]
        if mPrint then ih.printStatement s3
        else
          let (mReturn, s4) := s3.matchToken [.returnKw]
          if mReturn then ih.returnStatement s4
          else
            let (mWhile, s5) := s4.matchToken [.whileKw]
            if mWhile then ih.whileStatement s5
            else
              let (mBrace, s6) := s5.matchToken [.leftBrace]
              if mBrace then
                match ih.blockStmts s6 with
                | (.ok stmts, s7) => (.ok (Stmt.block stmts), s7)
                | (.err, s7) => (.err, s7)
                | (.crash, s7) => (.crash, s7)
              else ih.expressionStatement s6
  -- `Parser::for_statement`: desugars to `Block`/`While` as in the source.
  forStatement := fun s =>
    match s.consume .leftParen "Expect '(' after 'for'." with
    | (.ok _, s1) =>
      let (mSemi, s2) := s1.matchToken [.semicolon]
      let (initRes, s3) :=
        if mSemi then (PRes.ok (Option.none : Option Stmt), s2)
        else
          let (mVar, s2') := s2.matchToken [.varKw]
          if mVar then
            match ih.varDeclaration s2' with
            | (.ok st, s3) => (.ok (some st), s3)
            | (.err, s3) => (.ok Option.none, s3)
            | (.crash, s3) => (.crash, s3)
          else
            match ih.expressionStatement s2' with
            | (.ok st, s3) => (.ok (some st), s3)
            | (.err, s3) => (.ok Option.none, s3)
            | (.crash, s3) => (.crash, s3)
      match initRes with
      | .crash => (.crash, s3)
      | .err => (.err, s3)
      | .ok initOpt =>
        let (condRes, s4) :=
          if s3.check .semicolon then (PRes.ok (Expr.literal (.boolean true)), s3)
          else ih.expression s3
        match condRes with
        | .ok cond =>
          match s4.consume .semicolon "Expect ';' after loop condition." with
          | (.ok _, s5) =>
            let (incRes, s6) :=
              if s5.check .rightParen then (PRes.ok (Option.none : Option Expr), s5)
              else
                match ih.expression s5 with
                | (.ok e, s6) => (.ok (some e), s6)
                | (.err, s6) => (.ok Option.none, s6)
                | (.crash, s6) => (.crash, s6)
            match incRes with
            | .crash => (.crash, s6)
            | .err => (.err, s6)
            | .ok incOpt =>
              match s6.consume .rightParen "Expect ')' after for clauses." with
              | (.ok _, s7) =>
                match ih.statement s7 with
                | (.ok body0, s8) =>
                  let body1 := match incOpt with
                    | some inc => Stmt.block [body0, Stmt.expression inc]
                    | Option.none => body0
                  let body2 := Stmt.whileStmt cond body1
                  let body3 := match initOpt with
                    | some ini => Stmt.block [ini, body2]
                    | Option.none => body2
                  (.ok body3, s8)
                | (.err, s8) => (.err, s8)
                | (.crash, s8) => (.crash, s8)
              | (.err, s7) => (.err, s7)
              | (.crash, s7) => (.crash, s7)
          | (.err, s5) => (.err, s5)
          | (.crash, s5) => (.crash, s5)
        | .err => (.err, s4)
        | .crash => (.crash, s4)
    | (.err, s1) => (.err, s1)
    | (.crash, s1) => (.crash, s1)
  -- `Parser::if_statement` (a failed `else` branch becomes `None`).
  ifStatement := fun s =>
    match s.consume .leftParen "Expect '(' after 'if'." with
    | (.ok _, s1) =>
      match ih.expression s1 with
      | (.ok cond, s2) =>
        match s2.consume .rightParen "Expect ')' after if condition." with
        | (.ok _, s3) =>
          match ih.statement s3 with
          | (.ok thenB, s4) =>
            let (mElse, s5) := s4.matchToken [.elseKw]
            if mElse then
              match ih.statement s5 with
              | (.ok elseB, s6) => (.ok (Stmt.ifStmt cond thenB (some elseB)), s6)
              | (.err, s6) => (.ok (Stmt.ifStmt cond thenB Option.none), s6)
              | (.crash, s6) => (.crash, s6)
            else (.ok (Stmt.ifStmt cond thenB Option.none), s5)
          | (.err, s4) => (.err, s4)
          | (.crash, s4) => (.crash, s4)
        | (.err, s3) => (.err, s3)
        | (.crash, s3) => (.crash, s3)
      | (.err, s2) => (.err, s2)
      | (.crash, s2) => (.crash, s2)
    | (.err, s1) => (.err, s1)
    | (.crash, s1) => (.crash, s1)
  -- `Parser::print_statement`.
  printStatement := fun s =>
    match ih.expression s with
    | (.ok value, s1) =>
      match s1.consume .semicolon "Expect ';' after value." with
      | (.ok _, s2) => (.ok (Stmt.print value), s2)
      | (.err, s2) => (.err, s2)
      | (.crash, s2) => (.crash, s2)
    | (.err, s1) => (.err, s1)
    | (.crash, s1) => (.crash, s1)
  -- `Parser::return_statement`: a failed value parse becomes `None`, and the
  -- trailing semicolon `consume`'s result is discarded.
  returnStatement := fun s =>
    let keyword := s.previous
    let (valueRes, s1) :=
      if !s.check .semicolon then
        match ih.expression s with
        | (.ok e, s1) => (PRes.ok (some e), s1)
        | (.err, s1) => (PRes.ok (Option.none : Option Expr), s1)
        | (.crash, s1) => (PRes.crash, s1)
      else (PRes.ok (Option.none : Option Expr), s)
    match valueRes with
    | .ok value =>
      let (_, s2) := s1.consume .semicolon "Expect ';' after return value."
      (.ok (Stmt.returnStmt keyword value), s2)
    | .err => (.err, s1)
    | .crash => (.crash, s1)
  -- `Parser::var_declaration` (a failed initializer becomes `None`).
  varDeclaration := fun s =>
    match s.consume .identifier "Expect variable name." with
    | (.ok name, s1) =>
      let (mEq, s2) := s1.matchToken [.equal]
      let (initRes, s3) :=
        if mEq then
          match ih.expression s2 with
          | (.ok e, s3) => (PRes.ok (some e), s3)
          | (.err, s3) => (PRes.ok (Option.none : Option Expr), s3)
          | (.crash, s3) => (PRes.crash, s3)
        else (PRes.ok (Option.none : Option Expr), s2)
      match initRes with
      | .ok initOpt =>
        match s3.consume .semicolon "Expect ';' after variable declaration." with
        | (.ok _, s4) => (.ok (Stmt.varDecl name initOpt), s4)
        | (.err, s4) => (.err, s4)
        | (.crash, s4) => (.crash, s4)
      | .err => (.err, s3)
      | .crash => (.crash, s3)
    | (.err, s1) => (.err, s1)
    | (.crash, s1) => (.crash, s1)
  -- `Parser::while_statement`.
  whileStatement := fun s =>
    match s.consume .leftParen "Expect '(' after 'while'." with
    | (.ok _, s1) =>
      match ih.expression s1 with
      | (.ok cond, s2) =>
        match s2.consume .rightParen "Expect ')' after condition." with
        | (.ok _, s3) =>
          match ih.statement s3 with
          | (.ok body, s4) => (.ok (Stmt.whileStmt cond body), s4)
          | (.err, s4) => (.err, s4)
          | (.crash, s4) => (.crash, s4)
        | (.err, s3) => (.err, s3)
        | (.crash, s3) => (.crash, s3)
      | (.err, s2) => (.err, s2)
      | (.crash, s2) => (.crash, s2)
    | (.err, s1) => (.err, s1)
    | (.crash, s1) => (.crash, s1)
  -- `Parser::expression_statement`.
  expressionStatement := fun s =>
    match ih.expression s with
    | (.ok e, s1) =>
      match s1.consume .semicolon "Expect ';' after expression." with
      | (.ok _, s2) => (.ok (Stmt.expression e), s2)
      | (.err, s2) => (.err, s2)
      | (.crash, s2) => (.crash, s2)
    | (.err, s1) => (.err, s1)
    | (.crash, s1) => (.crash, s1)
  -- `Parser::expression`.
  expression := fun s =>
 ih.assignment s
  -- `Parser::assignment`: right-recursive; a bare `Variable` left side
  -- rewrites to `Assign`, a `Get` to `Set`, anything else is an error whose
  -- message is never reported to the sink.
  assignment := fun s =>
    match ih.orExpr s with
    | (.ok e, s1) =>
      let (mEq, s2) := s1.matchToken [.equal]
      if mEq then
        match ih.assignment s2 with
        | (.ok value, s3) =>
          match e with
          | .var tok => (.ok (Expr.assign tok value), s3)
          | .get obj name => (.ok (Expr.set obj name value), s3)
          | _ => (.err, s3)
        | (.err, s3) => (.err, s3)
        | (.crash, s3) => (.crash, s3)
      else (.ok e, s2)
    | (.err, s1) => (.err, s1)
    | (.crash, s1) => (.crash, s1)
  -- `Parser::or`.
  orExpr := fun s =>
    match ih.andExpr s with
    | (.ok e, s1) => ih.orLoop e s1
    | (.err, s1) => (.err, s1)
    | (.crash, s1) => (.crash, s1)
  orLoop := fun e s =>
    let (m, s1) := s.matchToken [.orKw]
    if m then
      let op := s1.previous
      match ih.andExpr s1 with
      | (.ok r, s2) => ih.orLoop (Expr.logical e op r) s2
      | (.err, s2) => (.err, s2)
      | (.crash, s2) => (.crash, s2)
    else (.ok e, s1)
  -- `Parser::and`.
  andExpr := fun s =>
    match ih.equality s with
    | (.ok e, s1) => ih.andLoop e s1
    | (.err, s1) => (.err, s1)
    | (.crash, s1) => (.crash, s1)
  andLoop := fun e s =>
    let (m, s1) := s.matchToken [.andKw]
    if m then
      let op := s1.previous
      match ih.equality s1 with
      | (.ok r, s2) => ih.andLoop (Expr.logical e op r) s2
      | (.err, s2) => (.err, s2)
      | (.crash, s2) => (.crash, s2)
    else (.ok e, s1)
  -- `Parser::equality`.
  equality := fun s =>
    match ih.comparison s with
    | (.ok e, s1) => ih.equalityLoop e s1
    | (.err, s1) => (.err, s1)
    | (.crash, s1) => (.crash, s1)
  equalityLoop := fun e s =>
    let (m, s1) := s.matchToken [.bangEqual, .equalEqual]
    if m then
      let op := s1.previous
      match ih.comparison s1 with
      | (.ok r, s2) => ih.equalityLoop (Expr.binary e op r) s2
      | (.err, s2) => (.err, s2)
      | (.crash, s2) => (.crash, s2)
    else (.ok e, s1)
  -- `Parser::comparison`.
  comparison := fun s =>
    match ih.termExpr s with
    | (.ok e, s1) => ih.comparisonLoop e s1
    | (.err, s1) => (.err, s1)
    | (.crash, s1) => (.crash, s1)
  comparisonLoop := fun e s =>
    let (m, s1) := s.matchToken [.greater, .greaterEqual, .less, .lessEqual]
    if m then
      let op := s1.previous
      match ih.termExpr s1 with
      | (.ok r, s2) => ih.comparisonLoop (Expr.binary e op r) s2
      | (.err, s2) => (.err, s2)
      | (.crash, s2) => (.crash, s2)
    else (.ok e, s1)
  -- `Parser::term`.
  termExpr := fun s =>
    match ih.factor s with
    | (.ok e, s1) => ih.termLoop e s1
    | (.err, s1) => (.err, s1)
    | (.crash, s1) => (.crash, s1)
  termLoop := fun e s =>
    let (m, s1) := s.matchToken [.minus, .plus]
    if m then
      let op := s1.previous
      match ih.factor s1 with
      | (.ok r, s2) => ih.termLoop (Expr.binary e op r) s2
      | (.err, s2) => (.err, s2)
      | (.crash, s2) => (.crash, s2)
    else (.ok e, s1)
  -- `Parser::factor`.
  factor := fun s =>
    match ih.unaryExpr s with
    | (.ok e, s1) => ih.factorLoop e s1
    | (.err, s1) => (.err, s1)
    | (.crash, s1) => (.crash, s1)
  factorLoop := fun e s =>
    let (m, s1) := s.matchToken [.slash, .star]
    if m then
      let op := s1.previous
      match ih.unaryExpr s1 with
      | (.ok r, s2) => ih.factorLoop (Expr.binary e op r) s2
      | (.err, s2) => (.err, s2)
      | (.crash, s2) => (.crash, s2)
    else (.ok e, s1)
  -- `Parser::unary`.
  unaryExpr := fun s =>
    let (m, s1) := s.matchToken [.bang, .minus]
    if m then
      let op := s1.previous
      match ih.unaryExpr s1 with
      | (.ok r, s2) => (.ok (Expr.unary op r), s2)
      | (.err, s2) => (.err, s2)
      | (.crash, s2) => (.crash, s2)
    else ih.callExpr s1
  -- `Parser::call`.
  callExpr := fun s =>
    match ih.primary s with
    | (.ok e, s1) => ih.callLoop e s1
    | (.err, s1) => (.err, s1)
    | (.crash, s1) => (.crash, s1)
  callLoop := fun e s =>
    let (mParen, s1) := s.matchToken [.leftParen]
    if mParen then
      match ih.finishCall e s1 with
      | (.ok e', s2) => ih.callLoop e' s2
      | (.err, s2) => (.err, s2)
      | (.crash, s2) => (.crash, s2)
    else
      let (mDot, s2) := s1.matchToken [.dot]
      if mDot then
        match s2.consume .identifier "Expect property name after '.'." with
        | (.ok name, s3) => ih.callLoop (Expr.get e name) s3
        | (.err, s3) => (.err, s3)
        | (.crash, s3) => (.crash, s3)
      else (.ok e, s2)
  -- `Parser::finish_call`: a failed argument expression is skipped
  -- (`if let Ok`); the closing-paren `consume` is `.unwrap()`ed (panic).
  finishCall := fun callee s =>
    let (argsRes, s1) :=
      if s.check .rightParen then (PRes.ok ([] : List Expr), s)
      else ih.argsLoop [] s
    match argsRes with
    | .ok args =>
      match s1.consume .rightParen "Expect ')' after arguments." with
      | (.ok paren, s2) => (.ok (Expr.call callee paren args), s2)
      | (_, s2) => (.crash, s2)
    | .err => (.err, s1)
    | .crash => (.crash, s1)
  argsLoop := fun args s =>
    let s1 := if 255 ≤ args.length then
        s.errorAtToken s.peek "Can't have more than 255 arguments." else s
    match ih.expression s1 with
    | (.crash, s2) => (.crash, s2)
    | (res, s2) =>
      let args' := match res with
        | .ok x => args ++ [x]
        | _ => args
      let (mComma, s3) := s2.matchToken [.comma]
      if mComma then ih.argsLoop args' s3 else (.ok args', s3)
  -- `Parser::primary`.
  primary := fun s =>
    let (mFalse, s1) := s.matchToken [.falseKw]
    if mFalse then (.ok (Expr.literal (.boolean false)), s1)
    else
      let (mTrue, s2) := s1.matchToken [.trueKw]
      if mTrue then (.ok (Expr.literal (.boolean true)), s2)
      else
        let (mNil, s3) := s2.matchToken [.nilKw]
        if mNil then (.ok (Expr.literal .none), s3)
        else
          let (mLit, s4) := s3.matchToken [.number, .stringTok]
          if mLit then (.ok (Expr.literal s4.previous.literal), s4)
          else
            let (mId, s5) := s4.matchToken [.identifier]
            if mId then (.ok (Expr.var s5.previous), s5)
            else
              let (mParen, s6) := s5.matchToken [.leftParen]
              if mParen then
                match ih.expression s6 with
                | (.ok e, s7) =>
                  match s7.consume .rightParen "Expect ')' after expression." with
                  | (.ok _, s8) => (.ok (Expr.grouping e), s8)
                  | (.err, s8) => (.err, s8)
                  | (.crash, s8) => (.crash, s8)
                | (.err, s7) => (.err, s7)
                | (.crash, s7) => (.crash, s7)
              else (.err, s6.errorAtToken s6.peek "Expect expression")
  -- The loop of `Parser::parse`: collect declarations until `Eof`.
  parseLoop := fun s =>
    if s.isAtEnd then (.ok [], s)
    else
      match ih.declaration s with
      | (.ok (some st), s1) =>
        match ih.parseLoop s1 with
        | (.ok rest, s2) => (.ok (st :: rest), s2)
        | (.err, s2) => (.err, s2)
        | (.crash, s2) => (.crash, s2)
      | (.ok Option.none, s1) => ih.parseLoop s1
      | (.err, s1) => (.err, s1)
      | (.crash, s1) => (.crash, s1)

/-- The fuelled parser fixpoint, unfolding by iota reduction. -/
def parserF : Nat → ParserF :=
  fun n => Nat.rec (motive := fun _ => ParserF) parserBase (fun _ ihn => parserStep ihn) n

/-- `Parser::parse` on a token list, starting from index 0 with a clean
error log and flag. -/
def parseProgram (fuel : Nat) (tokens : List Token) : PRes (List Stmt) × PState :=
  (parserF fuel).parseLoop { tokens := tokens, current := 0, log := [], hadError := false }

/-! ## Runtime values (`interpreter.rs`, `function.rs`, `lox_class.rs`)

`Rc<RefCell<Environment>>` handles are modelled as indices into a store of
environments (see `Interp`); a user function's captured `enclosing` handle
is therefore an index.  A `Function::Native` carries a `Box<fn(&Vec<Value>)
-> Value>` in the source; the body is an opaque host function (the only
native, `clock`, reads the wall clock), so only its arity is carried here
and `Function::call` on a native is not modelled beyond returning a value —
no claim invokes a native. -/

structure LoxClass where
  name : String

mutual

inductive Value where
  | none
  | boolean (b : Bool)
  | number (n : ℚ)
  | string (s : String)
  | callable (f : Function)
  | classV (c : LoxClass)
  | instanceV (i : LoxInstance)

inductive Function where
  | native (arity : Nat)
  | user (name : Token) (params : List Token) (body : List Stmt) (closure : Nat)

inductive LoxInstance where
  | mk (klass : LoxClass) (fields : List (String × Value))

end

/-- `impl Display for Function` in `function.rs`. -/
def Function.display : Function → String
  | .native _ => "<native fn>"
  | .user name _ _ _ => "<fn " ++ name.lexeme ++ ">"

/-- Rust's `{}` formatting of an `f64` prints integral values without a
fractional part.  Numbers are modelled as rationals; only integral values
are ever printed by the programs considered here, so the non-integral case
is rendered as a fraction. -/
def dispNumber (q : ℚ) : String :=
  if q.den = 1 then toString q.num
  else toString q.num ++ "/" ++ toString q.den

/-- `impl Display for Value` in `interpreter.rs`: note `None` renders as
`"none"` and every `Callable` as `"function"` (the `Function` formatter
above is not consulted). -/
def Value.display : Value → String
  | .none => "none"
  | .boolean b => if b then "true" else "false"
  | .number n => dispNumber n
  | .string s => s
  | .callable _ => "function"
  | .classV _ => "class"
  | .instanceV _ => "instance"

/-- `is_truthy` from `interpreter.rs`. -/
def isTruthy : Value → Bool
  | .none => false
  | .boolean b => b
  | _ => true

/-- `is_equal` from `interpreter.rs`: payload comparison on like variants
of `None`/`Boolean`/`Number`/`String`; every other pairing is `false`. -/
def isEqual : Value → Value → Bool
  | .none, .none => true
  | .boolean l, .boolean r => l == r
  | .number l, .number r => l == r
  | .string l, .string r => l == r
  | _, _ => false

/-- `Function::arity`. -/
def Function.arity : Function → Nat
  | .native a => a
  | .user _ params _ _ => params.length

/-! ## Environments (`environment.rs`) -/

/-- One `Environment`: a name→value table plus an optional enclosing
handle (a store index). -/
structure Env where
  enclosing : Option Nat
  values : List (String × Value)

/-- `HashMap::insert` on the association-list model of `values`. -/
def alInsert (k : String) (v : Value) : List (String × Value) → List (String × Value)
  | [] => [(k, v)]
  | (k', v') :: rest => if k' == k then (k', v) :: rest else (k', v') :: alInsert k v rest

/-- `HashMap::get` on the association-list model of `values`. -/
def alGet (k : String) : List (String × Value) → Option Value
  | [] => Option.none
  | (k', v') :: rest => if k' == k then some v' else alGet k rest

def storeGetEnv (store : List Env) (r : Nat) : Env :=
  (store.get? r).getD { enclosing := Option.none, values := [] }

/-- `Environment::get`: local table first, else recurse into the enclosing
environment; `Option.none` models the `Err("Undefined variable …")` result.
The chain is acyclic (enclosing handles always point to earlier-created
environments), so `store.length + 1` units of fuel always suffice. -/
def envGet (store : List Env) : Nat → Nat → String → Option Value
  | 0, _, _ => Option.none
  | fuel + 1, r, name =>
    let e := storeGetEnv store r
    match alGet name e.values with
    | some v => some v
    | Option.none =>
      match e.enclosing with
      | some r' => envGet store fuel r' name
      | Option.none => Option.none

/-- `Environment::assign`: overwrite in the first table of the chain that
contains the key; `Option.none` models the `Err("Undefined variable …")`. -/
def envAssign (store : List Env) : Nat → Nat → String → Value → Option (List Env)
  | 0, _, _, _ => Option.none
  | fuel + 1, r, name, v =>
    let e := storeGetEnv store r
    if (alGet name e.values).isSome then
      some (store.set r { e with values := alInsert name v e.values })
    else
      match e.enclosing with
      | some r' => envAssign store fuel r' name v
      | Option.none => Option.none

/-! ## Evaluator (`interpreter.rs`, `function.rs`, `main.rs`) -/

/-- The interpreter state: the store of shared environments, the
`environment` handle, the `globals` field (held by value in the struct and
pre-seeded with `clock`; it is *not* part of the store or of any chain),
the `println!` stream and the `HAD_ERROR` flag. -/
structure Interp where
  store : List Env
  envRef : Nat
  globals : Env
  output : List String
  hadError : Bool

/-- `Interpreter::new`: a fresh empty current environment, and a separate
`globals` in which the native `clock` (arity 0) is defined. -/
def Interp.new : Interp :=
  { store := [{ enclosing := Option.none, values := [] }]
  , envRef := 0
  , globals := { enclosing := Option.none
               , values := [("clock", Value.callable (Function.native 0))] }
  , output := []
  , hadError := false }

/-- `Environment::define` on the current environment. -/
def Interp.defineVar (s : Interp) (name : String) (v : Value) : Interp :=
  let e := storeGetEnv s.store s.envRef
  { s with store := s.store.set s.envRef { e with values := alInsert name v e.values } }

/-- `crate::error_at_token` as called from the evaluator: `report` prints
to stdout and sets `HAD_ERROR`. -/
def Interp.reportAt (s : Interp) (tok : Token) (message : String) : Interp :=
  let whereStr := if tok.tokenType == .eof then " at end" else " at '" ++ tok.lexeme ++ "'"
  { s with output := s.output ++ [reportStr tok.line whereStr message], hadError := true }

/-- `visit_literal_expr`. -/
def litToValue : Literal → Value
  | .none => Value.none
  | .boolean b => Value.boolean b
  | .number n => Value.number n
  | .string s => Value.string s

/-- Runtime outcome of a Rust `panic!`/`unwrap` failure (`crash`), or of
fuel exhaustion in the embedding (`fuelOut`, unreachable given enough
fuel). -/
inductive RtErr where
  | crash
  | fuelOut
deriving DecidableEq, Repr

/-- The parameter-binding loop of `Function::call`: `define` each parameter
in declaration order (callers guard `params.length ≤ args.length`; the Rust
code indexes `arguments[i]` and panics otherwise). -/
def bindParams (params : List Token) (args : List Value) : List (String × Value) :=
  (params.zip args).foldl (fun acc pa => alInsert pa.1.lexeme pa.2 acc) []

/-- The mutually recursive evaluator methods, gathered in one bundle so
that the fuelled fixpoint below unfolds by plain iota reduction. -/
structure InterpF where
  evaluate : Expr → Interp → Except RtErr (Value × Interp)
  evalArgs : List Expr → Interp → Except RtErr (List Value × Interp)
  callFunction : Function → List Value → Interp → Except RtErr (Value × Interp)
  executeBlock : List Stmt → Nat → Interp → Except RtErr (Option Value × Interp)
  execStmts : List Stmt → Interp → Except RtErr (Option Value × Interp)
  execute : Stmt → Interp → Except RtErr (Option Value × Interp)
  whileLoop : Expr → Stmt → Interp → Except RtErr (Option Value × Interp)

/-- Out-of-fuel base of the evaluator fixpoint (unreachable given enough
fuel). -/
def interpBase : InterpF :=
  { evaluate := fun _ _ => .error .fuelOut
  , evalArgs := fun _ _ => .error .fuelOut
  , callFunction := fun _ _ _ => .error .fuelOut
  , executeBlock := fun _ _ _ => .error .fuelOut
  , execStmts := fun _ _ => .error .fuelOut
  , execute := fun _ _ => .error .fuelOut
  , whileLoop := fun _ _ _ => .error .fuelOut }

/-- One step of the evaluator fixpoint: each method's body is the direct
translation of the corresponding source method, with recursive calls going
through the bundle `ih` of the previous fuel level.

`evaluate` is `Expr::accept` / the `ExprVisitor` impl on `Interpreter`:
`.error .crash` models a panic (type-mismatch `panic!`s, `.unwrap()` on an
undefined variable in `visit_var_expr`/`visit_assign_expr`).  `Get`/`Set`
have no dispatch in `expression.rs`'s `accept` (the variants are commented
out there), so reaching one is modelled as a crash. -/
def interpStep (ih : InterpF) : InterpF where
  evaluate := fun e s =>
    match e with
    | .literal l => .ok (litToValue l, s)
    | .grouping g => ih.evaluate g s
    | .var name =>
      match envGet s.store (s.store.length + 1) s.envRef name.lexeme with
      | some v => .ok (v, s)
      | Option.none => .error .crash
    | .assign name value =>
      match ih.evaluate value s with
      | .ok (v, s1) =>
        match envAssign s1.store (s1.store.length + 1) s1.envRef name.lexeme v with
        | some store' => .ok (v, { s1 with store := store' })
        | Option.none => .error .crash
      | .error er => .error er
    | .unary op r =>
      match ih.evaluate r s with
      | .ok (right, s1) =>
        match op.tokenType with
        | .bang => .ok (Value.boolean (!isTruthy right), s1)
        | .minus =>
          match right with
          | .number n => .ok (Value.number (-n), s1)
          | _ => .error .crash
        | _ => .ok (Value.none, s1)
      | .error er => .error er
    | .binary l op r =>
      match ih.evaluate l s with
      | .ok (left, s1) =>
        match ih.evaluate r s1 with
        | .ok (right, s2) =>
          match op.tokenType with
          | .minus =>
            match left, right with
            | .number ln, .number rn => .ok (Value.number (ln - rn), s2)
            | _, _ => .error .crash
          | .slash =>
            match left, right with
            | .number ln, .number rn => .ok (Value.number (ln / rn), s2)
            | _, _ => .error .crash
          | .star =>
            match left, right with
            | .number ln, .number rn => .ok (Value.number (ln * rn), s2)
            | _, _ => .error .crash
          | .plus =>
            match left, right with
            | .string ls, .string rs => .ok (Value.string (ls ++ rs), s2)
            | .number ln, .number rn => .ok (Value.number (ln + rn), s2)
            | _, _ => .error .crash
          | .greater =>
            match left, right with
            | .number ln, .number rn => .ok (Value.boolean (rn < ln), s2)
            | _, _ => .error .crash
          | .greaterEqual =>
            match left, right with
            | .number ln, .number rn => .ok (Value.boolean (rn ≤ ln), s2)
            | _, _ => .error .crash
          | .less =>
            match left, right with
            | .number ln, .number rn => .ok (Value.boolean (ln < rn), s2)
            | _, _ => .error .crash
          | .lessEqual =>
            match left, right with
            | .number ln, .number rn => .ok (Value.boolean (ln ≤ rn), s2)
            | _, _ => .error .crash
          | .bangEqual => .ok (Value.boolean (!isEqual left right), s2)
          | .equalEqual => .ok (Value.boolean (isEqual left right), s2)
          | _ => .ok (Value.none, s2)
        | .error er => .error er
      | .error er => .error er
    | .logical l op r =>
      match ih.evaluate l s with
      | .ok (left, s1) =>
        if op.tokenType == .orKw then
          if isTruthy left then .ok (left, s1) else ih.evaluate r s1
        else
          if !isTruthy left then .ok (left, s1) else ih.evaluate r s1
      | .error er => .error er
    | .call c paren args =>
      match ih.evaluate c s with
      | .ok (callee, s1) =>
        match ih.evalArgs args s1 with
        | .ok (argVals, s2) =>
          match callee with
          | .callable f =>
            let s3 :=
              if argVals.length ≠ f.arity then
                s2.reportAt paren
                  ("Expected " ++ toString f.arity ++ " argument but got "
                    ++ toString argVals.length ++ ".")
              else s2
            ih.callFunction f argVals s3
          | .classV _ => .ok (Value.none, s2)
          | _ => .ok (Value.none, s2.reportAt paren "Can only call functions and classes.")
        | .error er => .error er
      | .error er => .error er
    | .get _ _ => .error .crash
    | .set _ _ _ => .error .crash

  -- The argument loop of `visit_call_expr`: strict left-to-right.
  evalArgs := fun es s =>
    match es with
    | [] => .ok ([], s)
    | e :: rest =>
      match ih.evaluate e s with
      | .ok (v, s1) =>
        match ih.evalArgs rest s1 with
        | .ok (vs, s2) => .ok (v :: vs, s2)
        | .error er => .error er
      | .error er => .error er
  -- `Function::call`: a user call builds a fresh environment enclosed by
  -- the captured closure, binds the parameters, and runs the body through
  -- `execute_block`; a raised `Return` becomes the call's value, completion
  -- yields `Value::None`.
  callFunction := fun f args s =>
    match f with
    | .native _ => .ok (Value.none, s)
    | .user _ params body closure =>
      if args.length < params.length then .error .crash
      else
        let newEnv : Env := { enclosing := some closure, values := bindParams params args }
        let newRef := s.store.length
        let s1 := { s with store := s.store ++ [newEnv] }
        match ih.executeBlock body newRef s1 with
        | .ok (some v, s2) => .ok (v, s2)
        | .ok (Option.none, s2) => .ok (Value.none, s2)
        | .error er => .error er
  -- `Interpreter::execute_block`: save the current handle, switch to the
  -- given environment, run the statements, and restore the saved handle on
  -- both the normal and the `Return` path.
  executeBlock := fun stmts envRef s =>
    let previous := s.envRef
    match ih.execStmts stmts { s with envRef := envRef } with
    | .ok (rv, s1) => .ok (rv, { s1 with envRef := previous })
    | .error er => .error er
  -- The statement loop inside `execute_block`: the `?` operator propagates
  -- a raised `Return` immediately.
  execStmts := fun stmts s =>
    match stmts with
    | [] => .ok (Option.none, s)
    | st :: rest =>
      match ih.execute st s with
      | .ok (Option.none, s1) => ih.execStmts rest s1
      | .ok (some v, s1) => .ok (some v, s1)
      | .error er => .error er
  -- `Stmt::accept` / the `StmtVisitor` impl on `Interpreter`.  The result
  -- carries `some v` when an `Err(Return { value: v })` was raised;
  -- `Class` statements are a no-op in `statement.rs`'s `accept`.
  execute := fun st s =>
    match st with
    | .expression e =>
      match ih.evaluate e s with
      | .ok (_, s1) => .ok (Option.none, s1)
      | .error er => .error er
    | .print e =>
      match ih.evaluate e s with
      | .ok (v, s1) => .ok (Option.none, { s1 with output := s1.output ++ [v.display] })
      | .error er => .error er
    | .returnStmt _ value =>
      match value with
      | some e =>
        match ih.evaluate e s with
        | .ok (v, s1) => .ok (some v, s1)
        | .error er => .error er
      | Option.none => .ok (some Value.none, s)
    | .varDecl name initOpt =>
      match initOpt with
      | some e =>
        match ih.evaluate e s with
        | .ok (v, s1) => .ok (Option.none, s1.defineVar name.lexeme v)
        | .error er => .error er
      | Option.none => .ok (Option.none, s.defineVar name.lexeme Value.none)
    | .whileStmt cond body => ih.whileLoop cond body s
    | .block stmts =>
      let newEnv : Env := { enclosing := some s.envRef, values := [] }
      let newRef := s.store.length
      let s1 := { s with store := s.store ++ [newEnv] }
      ih.executeBlock stmts newRef s1
    | .ifStmt cond thenB elseB =>
      match ih.evaluate cond s with
      | .ok (v, s1) =>
        if isTruthy v then ih.execute thenB s1
        else
          match elseB with
          | some eb => ih.execute eb s1
          | Option.none => .ok (Option.none, s1)
      | .error er => .error er
    | .function name params body =>
      .ok (Option.none,
        s.defineVar name.lexeme
          (Value.callable (Function.user name params body s.envRef)))
    | .classDecl _ _ => .ok (Option.none, s)
  -- `visit_while_stmt`: re-evaluate the condition before every iteration.
  whileLoop := fun cond body s =>
    match ih.evaluate cond s with
    | .ok (v, s1) =>
      if isTruthy v then
        match ih.execute body s1 with
        | .ok (Option.none, s2) => ih.whileLoop cond body s2
        | .ok (some rv, s2) => .ok (some rv, s2)
        | .error er => .error er
      else .ok (Option.none, s1)
    | .error er => .error er

/-- The fuelled evaluator fixpoint, unfolding by iota reduction: level
`n + 1` methods call level-`n` methods, exactly as the fuel discipline of
the mutual recursion it replaces. -/
def interpF : Nat → InterpF :=
  fun n => Nat.rec (motive := fun _ => InterpF) interpBase (fun _ ihn => interpStep ihn) n

/-- `Expr::accept` dispatched through the fixpoint at the given fuel. -/
def evaluate (fuel : Nat) : Expr → Interp → Except RtErr (Value × Interp) :=
  (interpF fuel).evaluate

/-- The argument loop of `visit_call_expr` at the given fuel. -/
def evalArgs (fuel : Nat) : List Expr → Interp → Except RtErr (List Value × Interp) :=
  (interpF fuel).evalArgs

/-- `Function::call` at the given fuel. -/
def callFunction (fuel : Nat) : Function → List Value → Interp → Except RtErr (Value × Interp) :=
  (interpF fuel).callFunction

/-- `Interpreter::execute_block` at the given fuel. -/
def executeBlock (fuel : Nat) : List Stmt → Nat → Interp → Except RtErr (Option Value × Interp) :=
  (interpF fuel).executeBlock

/-- The statement loop of `execute_block` at the given fuel. -/
def execStmts (fuel : Nat) : List Stmt → Interp → Except RtErr (Option Value × Interp) :=
  (interpF fuel).execStmts

/-- `Stmt::accept` at the given fuel. -/
def execute (fuel : Nat) : Stmt → Interp → Except RtErr (Option Value × Interp) :=
  (interpF fuel).execute

/-- `Interpreter::interpret`: run the statements in order; the `Result` of
each `execute` call — including a raised `Return` — is discarded, so the
loop continues after it. -/
def interpret : Nat → List Stmt → Interp → Except RtErr Interp
  | _, [], s => .ok s
  | fuel, st :: rest, s =>
    match execute fuel st s with
    | .ok (_, s1) => interpret fuel rest s1
    | .error er => .error er

/-! ## Driver (`main.rs`) -/

/-- `crate::run`: scan, parse, then interpret — the parsed statements are
interpreted even when parse errors were reported (`run` checks `HAD_ERROR`
only *after* `interpret`, where returning is a no-op).  The result is the
complete stdout stream (error reports and printed values, in order) and
the final `HAD_ERROR` flag; `.error` models a process-aborting panic. -/
def run (fuel : Nat) (source : String) : Except RtErr (List String × Bool) :=
  match scanTokens source with
  | Option.none => .error .crash
  | some tokens =>
    match parseProgram fuel tokens with
    | (.ok stmts, ps) =>
      match interpret fuel stmts Interp.new with
      | .ok s => .ok (ps.log ++ s.output, ps.hadError || s.hadError)
      | .error er => .error er
    | (_, _) => .error .crash

/-- Rust's `str::trim`: strip leading and trailing whitespace (the REPL
inputs considered here are ASCII). -/
def trimStr (s : String) : String :=
  String.mk (((s.data.dropWhile Char.isWhitespace).reverse.dropWhile
    Char.isWhitespace).reverse)

/-- `crate::run_prompt`: read lines until a blank one; each iteration calls
`run` on the trimmed line — `run` constructs a fresh `Interpreter` — and
resets `HAD_ERROR`.  The result is the concatenated stdout stream. -/
def runPrompt (fuel : Nat) : List String → Option (List String)
  | [] => some []
  | line :: rest =>
    if trimStr line = "" then some []
    else
      match run fuel (trimStr line) with
      | .error _ => Option.none
      | .ok (out, _) =>
        match runPrompt fuel rest with
        | some more => some (out ++ more)
        | Option.none => Option.none

/-- The value classes on which `is_equal`'s catch-all arm always answers
`false`: callables, classes and instances. -/
def isCallableLike : Value → Bool
  | .callable _ => true
  | .classV _ => true
  | .instanceV _ => true
  | _ => false

/-! ## Theorems -/

/-- Unfolding lemma of the evaluator fixpoint: one fuel step is one
application of `interpStep`. -/
theorem interpF_succ (n : Nat) : interpF (n + 1) = interpStep (interpF n) := rfl

/-- `execute_block` restores the interpreter's previous `environment`
handle on every non-panicking exit path, whether the statements completed
normally or a `Return` unwound out of them. -/
theorem executeBlock_restores (fuel : Nat) (stmts : List Stmt) (r : Nat) (s : Interp)
    (rv : Option Value) (s' : Interp)
    (h : executeBlock fuel stmts r s = .ok (rv, s')) : s'.envRef = s.envRef := by
  cases fuel with
  | zero =>
    exact Except.noConfusion
      (show (Except.error RtErr.fuelOut : Except RtErr (Option Value × Interp))
          = .ok (rv, s') from h)
  | succ f =>
    have h' : (match execStmts f stmts { s with envRef := r } with
        | .ok (rv0, s1) => (Except.ok (rv0, { s1 with envRef := s.envRef }) :
            Except RtErr (Option Value × Interp))
        | .error er => .error er) = .ok (rv, s') := h
    split at h'
    · simp only [Except.ok.injEq, Prod.mk.injEq] at h'
      obtain ⟨-, h2⟩ := h'
      subst h2
      rfl
    · exact absurd h' (by simp)

/-- C1: the claim says that a program with a parse error is never
interpreted, but `run` in `main.rs` calls `interpret` on the parsed
statements *before* it checks `HAD_ERROR` (and the check at the end of
`run` is a no-op `return`).  On `print 1; var;` the parser reports
`Expect variable name.` for the malformed declaration, yet the preceding
`print 1;` is still evaluated and prints `1`, with `HAD_ERROR` set. -/
theorem c1_parse_error_still_interprets :
    run 200 "print 1; var;" =
      .ok (["[line 1] Error at ';': Expect variable name.", "1"], true) := by rfl

/-- C2: the claim requires `global` then `global`, but the resolver module
is never wired into the driver, so the closure `show` resolves its free
variable `a` through the dynamic environment chain: after the later
`var a = "block";` defines `a` in the block environment (the closure's
enclosing environment), the second call prints `block`. -/
theorem c2_later_var_shadows_closure :
    run 500 "var a = \"global\"; \x7b fun show() \x7b print a; \x7d show(); var a = \"block\"; show(); \x7d" =
      .ok (["global", "block"], false) := by rfl

/-- C3: the claim says the `clock` built-in is reachable through the
current environment chain, but `Interpreter::new` installs `clock` only in
the `globals` field, while `environment` is a fresh, unconnected empty
environment — so evaluating the variable `clock` panics (the `.unwrap()` of
`Environment::get`'s `Err`) at every fuel, even though `globals` does
contain the arity-0 native callable. -/
theorem c3_clock_unreachable_from_current_env (fuel : Nat) :
    evaluate (fuel + 1) (Expr.var (Token.mk .identifier "clock" .none 1)) Interp.new =
        .error .crash ∧
      alGet "clock" Interp.new.globals.values =
        some (Value.callable (Function.native 0)) := by
  exact ⟨rfl, rfl⟩

/-- C4 counterexample: the claim says `print nil;` writes `nil`, but the
`Display` impl on `Value` renders the `None` variant as `none`. -/
theorem c4_print_nil_prints_none :
    run 200 "print nil;" = .ok (["none"], false) ∧ "none" ≠ "nil" :=
  ⟨by rfl, by decide⟩

/-- C4 (amended): the `print` statement writes the value's textual form as
one output line, where `Nil` renders as `none`, booleans as `true`/`false`,
strings verbatim, and *every* callable as `function`; the `Display` impl on
`Function` does define `<fn NAME>`/`<native fn>`, but value printing never
consults it. -/
theorem c4_value_printing :
    Value.display .none = "none" ∧
    (∀ b, Value.display (.boolean b) = (if b then "true" else "false")) ∧
    (∀ s, Value.display (.string s) = s) ∧
    (∀ f, Value.display (.callable f) = "function") ∧
    (∀ a, Function.display (.native a) = "<native fn>") ∧
    (∀ name params body closure,
      Function.display (.user name params body closure) = "<fn " ++ name.lexeme ++ ">") ∧
    (∀ fuel e s v s', evaluate fuel e s = .ok (v, s') →
      execute (fuel + 1) (Stmt.print e) s =
        .ok (Option.none, { s' with output := s'.output ++ [v.display] })) := by
  refine ⟨rfl, fun b => rfl, fun s => rfl, fun f => rfl, fun a => rfl,
    fun name params body closure => rfl, ?_⟩
  intro fuel e s v s' h
  simp only [evaluate] at h
  simp [execute, interpF_succ, interpStep, h]

/-- C4 witness: the print path applied to the literal `nil` in a fresh
interpreter. -/
theorem c4_value_printing_witness :
    execute 2 (Stmt.print (Expr.literal .none)) Interp.new =
      .ok (Option.none,
        { Interp.new with output := Interp.new.output ++ [Value.display Value.none] }) :=
  c4_value_printing.2.2.2.2.2.2 1 (Expr.literal .none) Interp.new Value.none Interp.new rfl

/-- C5: the claim says an arity-mismatched call never invokes the callable,
but `visit_call_expr` only *reports* the mismatch and then calls
`Function::call` anyway: `fun f(a) { print a; } f(1, 2);` reports the arity
error and still runs the body, printing `1`. -/
theorem c5_arity_mismatch_still_invokes :
    run 500 "fun f(a) \x7b print a; \x7d f(1, 2);" =
      .ok (["[line 1] Error at ')': Expected 1 argument but got 2.", "1"], true) := by rfl

/-- C6: the claim says `1.5` lexes as a single Number token, but
`Scanner::peek_next` reads the character at `current` (the dot itself)
instead of `current + 1`, so the fractional branch is never taken and the
lexeme splits into Number `1`, Dot, Number `5`. -/
theorem c6_number_lexeme_splits_at_dot :
    scanTokens "1.5" =
      some [Token.mk .number "1" (.number 1) 1,
            Token.mk .dot "." .none 1,
            Token.mk .number "5" (.number 5) 1,
            Token.mk .eof "" .none 1] := by decide

/-- C7: the claim says identifiers beginning with `o` lex as one Identifier
token, but `scan_token`'s dedicated `'o'` arm consumes the `o` and emits
nothing when the next character is not `r`: `once` lexes as the single
Identifier `nce`. -/
theorem c7_leading_o_identifier_mangled :
    scanTokens "once" =
      some [Token.mk .identifier "nce" .none 1, Token.mk .eof "" .none 1] := by decide

/-- C8: executing a `Block` statement leaves the interpreter's current
environment handle exactly as it was before the block, on every
non-panicking exit path — both normal completion (`rv = none`) and a
`Return` unwinding out of the block (`rv = some v`). -/
theorem c8_block_restores_current_env (fuel : Nat) (stmts : List Stmt) (s : Interp)
    (rv : Option Value) (s' : Interp)
    (h : execute fuel (Stmt.block stmts) s = .ok (rv, s')) :
    s'.envRef = s.envRef := by
  cases fuel with
  | zero =>
    exact Except.noConfusion
      (show (Except.error RtErr.fuelOut : Except RtErr (Option Value × Interp))
          = .ok (rv, s') from h)
  | succ f =>
    have h2 := executeBlock_restores f stmts s.store.length
      { s with store := s.store ++ [{ enclosing := some s.envRef, values := [] }] } rv s' h
    exact h2

/-- C8 witness: an empty block run in a fresh interpreter ends with the
same environment handle it started with. -/
theorem c8_block_restores_witness :
    (Interp.mk [Env.mk Option.none [], Env.mk (some 0) []] 0
        (Env.mk Option.none [("clock", Value.callable (Function.native 0))]) [] false).envRef
      = Interp.new.envRef :=
  c8_block_restores_current_env 3 [] Interp.new Option.none _ rfl

/-- C9: successive REPL lines are independent — `run` constructs a fresh
`Interpreter` on every invocation, so the stdout stream of the prompt loop
decomposes per line: the behaviour of the remaining lines is exactly
`runPrompt rest`, whatever the first line was, and no binding made by one
line is visible to the next. -/
theorem c9_repl_lines_independent (fuel : Nat) (line : String) (rest : List String)
    (out : List String) (err : Bool)
    (hne : ¬ trimStr line = "")
    (hrun : run fuel (trimStr line) = .ok (out, err)) :
    runPrompt fuel (line :: rest) =
      (runPrompt fuel rest).map (fun more => out ++ more) := by
  simp only [runPrompt, if_neg hne, hrun]
  cases runPrompt fuel rest <;> rfl

/-- C9 witness: `print 1;` followed by `print 2;` — the second line's
contribution is exactly what `runPrompt` produces for it alone. -/
theorem c9_repl_witness :
    runPrompt 300 ["print 1;", "print 2;"] =
      (runPrompt 300 ["print 2;"]).map (fun more => ["1"] ++ more) :=
  c9_repl_lines_independent 300 "print 1;" ["print 2;"] ["1"] false (by decide) (by rfl)

/-- C10: runtime equality is never `true` when either operand is a
callable, class or instance — even `v == v` is `false` for such `v` — and
`is_equal` is reflexive on the remaining values (`Nil`, booleans, numbers
— which are modelled as rationals and so carry no NaN — and strings). -/
theorem c10_equality_on_callables (v w : Value) :
    ((isCallableLike v || isCallableLike w) = true → isEqual v w = false) ∧
    (isCallableLike v = false → isEqual v v = true) := by
  constructor
  · intro h
    cases v <;> cases w <;> simp_all [isCallableLike, isEqual]
  · intro h
    cases v <;> simp_all [isCallableLike, isEqual]

/-- C10 witness: a native callable is not equal to itself, while a number
is. -/
theorem c10_equality_witness :
    isEqual (Value.callable (Function.native 0)) (Value.callable (Function.native 0)) = false ∧
    isEqual (Value.number 1) (Value.number 1) = true :=
  ⟨(c10_equality_on_callables (Value.callable (Function.native 0))
      (Value.callable (Function.native 0))).1 (by rfl),
   (c10_equality_on_callables (Value.number 1) (Value.number 1)).2 (by rfl)⟩

end CraftingRust
